import Mathlib

/-!
Verification of the CSV-to-PDF conversion core (`src/app.py`) against its
specification.  The two core functions are shallowly embedded:

* `read_csv_safely` — the tabular loader with its encoding-fallback ladder.
  The external library call `pd.read_csv` is modelled by `pd_read_csv`
  (header record + up to `nrows` data records, short rows padded with
  missing values) acting on the records obtained from an abstract
  per-encoding decode oracle.
* `df_to_pdf_bytes` — the document renderer, embedded as the construction of
  a `PDFDoc` value recording the page geometry, title, table cell markup,
  column widths and header-repetition flag that the Python code hands to
  reportlab.

Page sizes are exact rationals: reportlab's A4 is (210 mm, 297 mm) with
1 mm = 72/25.4 pt, hence width 75600/127 pt and height 106920/127 pt.
-/

namespace CsvToPdf

/-- Row cap `MAX_ROWS = 5000` (src/app.py line 14). -/
def MAX_ROWS : Nat := 5000

/-- A parsed table: ordered column names and ordered rows of cells.
A cell is `none` for a missing value (pandas NaN), `some s` for text `s`. -/
structure Table where
  cols : List String
  rows : List (List (Option String))
deriving Repr, DecidableEq

/- ### Cell escaping (src/app.py lines 79-84)

Python's `str.replace` with a single-character pattern replaces every
occurrence of that character; `replaceChar` is that operation on `List Char`. -/

/-- Python `s.replace(pat, rep)` for a one-character pattern `pat`. -/
def replaceChar (pat : Char) (rep : List Char) : List Char → List Char
  | [] => []
  | c :: cs => (if c = pat then rep else [c]) ++ replaceChar pat rep cs

/-- The renderer's escaping pipeline, in source order:
`&`→`&amp;`, then `<`→`&lt;`, then `>`→`&gt;`, then `\n`→`<br/>`. -/
def escape_cell (s : List Char) : List Char :=
  replaceChar '\n' ['<', 'b', 'r', '/', '>']
    (replaceChar '>' ['&', 'g', 't', ';']
      (replaceChar '<' ['&', 'l', 't', ';']
        (replaceChar '&' ['&', 'a', 'm', 'p', ';'] s)))

/-- Specification-side per-character escape: what each input character should
contribute to the escaped output. -/
def escChar (c : Char) : List Char :=
  if c = '&' then ['&', 'a', 'm', 'p', ';']
  else if c = '<' then ['&', 'l', 't', ';']
  else if c = '>' then ['&', 'g', 't', ';']
  else if c = '\n' then ['<', 'b', 'r', '/', '>']
  else [c]

/-- Specification-side checker: every `&` begins one of the entities
`&amp;`, `&lt;`, `&gt;`; every `<` begins the literal line-break marker
`<br/>` (which is consumed as a unit, so its `>` is not flagged); any other
raw `<` or `>` is rejected. -/
def wellEscaped : List Char → Bool
  | [] => true
  | '&' :: 'a' :: 'm' :: 'p' :: ';' :: rest => wellEscaped rest
  | '&' :: 'l' :: 't' :: ';' :: rest => wellEscaped rest
  | '&' :: 'g' :: 't' :: ';' :: rest => wellEscaped rest
  | '<' :: 'b' :: 'r' :: '/' :: '>' :: rest => wellEscaped rest
  | '&' :: _ => false
  | '<' :: _ => false
  | '>' :: _ => false
  | _ :: rest => wellEscaped rest

/- ### Tabular loader (src/app.py lines 17-43)

`pd.read_csv(stream, ...)` is an external library call.  Each attempt is
modelled as a value of `Except PErr Table`: `decodeErr` for Python's
`UnicodeDecodeError`, `otherErr` for every other exception; the `Nat`
payload identifies the particular error object, so that re-raising the
original error is observable.  The stream rewinds (`seek(0)`) make every
attempt read the same full input, so the attempts are a pure function of
the chosen encoding: `parse none` is the first call (pandas default
encoding), `parse (some e)` a call with an explicit `encoding=` argument. -/

/-- The encodings appearing in the fallback ladder. -/
inductive Enc
  | utf8
  | utf16
  | cp1252
  | latin1
deriving Repr, DecidableEq

/-- An exception escaping a `pd.read_csv` call. -/
inductive PErr
  | decodeErr (e : Nat)
  | otherErr (e : Nat)
deriving Repr, DecidableEq

/-- The ladder `['utf-8', 'utf-16', 'cp1252', 'latin-1']` (src/app.py line 34). -/
def fallback_encs : List Enc := [.utf8, .utf16, .cp1252, .latin1]

/-- The `for enc in [...]` retry loop (src/app.py lines 34-40): attempt each
encoding in order, stopping at the first success; `none` when all fail
(`df` stays `None`). -/
def try_encs (parse : Option Enc → Except PErr Table) : List Enc → Option Table
  | [] => none
  | e :: es =>
    match parse (some e) with
    | .ok df => some df
    | .error _ => try_encs parse es

/-- Loader `read_csv_safely` (src/app.py lines 17-43), abstracted over the
per-encoding parse attempts.  A `UnicodeDecodeError` on the first attempt
leads to a single `latin-1` retry whose outcome (success or exception) is
final; any other exception leads to the four-encoding retry loop, with the
original error re-raised (`raise`) when every retry fails. -/
def read_csv_safely (parse : Option Enc → Except PErr Table) : Except PErr Table :=
  match parse none with
  | .ok df => .ok df
  | .error (.decodeErr _) => parse (some .latin1)
  | .error (.otherErr e) =>
    match try_encs parse fallback_encs with
    | some df => .ok df
    | none => .error (.otherErr e)

/-- A short record is padded with missing values (NaN) up to the header
width, as pandas does when building a rectangular frame. -/
def pad_row (n : Nat) (r : List String) : List (Option String) :=
  r.map some ++ List.replicate (n - r.length) none

/-- Model of the library call `pd.read_csv(stream, sep=sep, nrows=n,
engine='python')` applied to a stream whose successfully tokenized records
are `recs`: the first record is the header, at most `n` further records
become data rows, and each ingested short row is NaN-padded to the header
width.  An empty stream (pandas `EmptyDataError`) and an ingested record
wider than the header (pandas' error/index-inference path, not taken by
well-formed CSV) are modelled as parse failures. -/
def pd_read_csv (recs : List (List String)) (n : Nat) : Except Unit Table :=
  match recs with
  | [] => .error ()
  | header :: rest =>
    let rows := rest.take n
    if rows.all (fun r => r.length ≤ header.length) then
      .ok ⟨header, rows.map (pad_row header.length)⟩
    else
      .error ()

/-- Loader `read_csv_safely` applied to a concrete input stream, described by its
decode oracle: `dec enc = some recs` when the stream decodes and tokenizes
under `enc` into the record list `recs`, `none` on a `UnicodeDecodeError`.
Every attempt passes `nrows=MAX_ROWS` (src/app.py lines 26, 30, 37). -/
def load (dec : Option Enc → Option (List (List String))) : Except PErr Table :=
  read_csv_safely fun enc =>
    match dec enc with
    | none => .error (.decodeErr 0)
    | some recs =>
      match pd_read_csv recs MAX_ROWS with
      | .ok df => .ok df
      | .error _ => .error (.otherErr 0)

/- ### Document renderer (src/app.py lines 46-114) -/

/-- A4 width in points: 210 mm at 72/25.4 pt per mm. -/
def A4w : ℚ := 75600 / 127

/-- A4 height in points: 297 mm at 72/25.4 pt per mm. -/
def A4h : ℚ := 106920 / 127

/-- Page size `page_size = landscape(A4) if landscape_mode else A4` (src/app.py
line 49); reportlab's `landscape` swaps width and height. -/
def pageSize (landscape_mode : Bool) : ℚ × ℚ :=
  if landscape_mode then (A4h, A4w) else (A4w, A4h)

/-- Margins `left, right, top, bottom = 20, 20, 30, 20` (src/app.py line 52). -/
def leftMargin : ℚ := 20

def rightMargin : ℚ := 20

/-- Usable width `usable_width = page_size[0] - left - right` (src/app.py line 91). -/
def usable_width (landscape_mode : Bool) : ℚ :=
  (pageSize landscape_mode).1 - leftMargin - rightMargin

/-- Weights `header_lengths = [max(5, len(h.getPlainText())) for h in headers]`
(src/app.py line 93); the plain text of `Paragraph(str(col))` is the
column-name text. -/
def header_lengths (headers : List String) : List Nat :=
  headers.map fun h => max 5 h.length

/-- Column count `num_cols = max(1, len(headers))` (src/app.py line 92). -/
def num_cols (headers : List String) : Nat := max 1 headers.length

/-- Weight sum `total_len = sum(header_lengths) if sum(header_lengths) else num_cols`
(src/app.py line 94): Python truthiness keeps the sum when nonzero. -/
def total_len (headers : List String) : Nat :=
  if (header_lengths headers).sum ≠ 0 then (header_lengths headers).sum
  else num_cols headers

/-- Widths `col_widths = [max(40, usable_width * (l / total_len)) for l in
header_lengths]` (src/app.py line 95); `l / total_len` is exact (true)
division. -/
def col_widths (headers : List String) (landscape_mode : Bool) : List ℚ :=
  (header_lengths headers).map fun l : Nat =>
    max 40 (usable_width landscape_mode * ((l : ℚ) / (total_len headers : ℚ)))

/-- The escaping pipeline on `String` (src/app.py lines 81-84). -/
def escape_str (s : String) : String := String.mk (escape_cell s.data)

/-- The document description `df_to_pdf_bytes` hands to reportlab: page
geometry, title paragraph, the table's cell markup (header row followed by
the data rows), column widths and the `repeatRows=1` header-repetition
flag. -/
structure PDFDoc where
  page : ℚ × ℚ
  title : String
  tableData : List (List String)
  colWidths : List ℚ
  repeatRows : Nat
deriving Repr, DecidableEq

/-- Renderer `df_to_pdf_bytes` (src/app.py lines 46-114).  `df.fillna('')` followed
by `str(val)` turns a missing cell into `''` and a text cell into its text
(`val.getD ""`); data cells then go through the escaping pipeline, while
header cells are `Paragraph(str(col))` on the raw column name.  The table
rows are `[headers] + data_rows` with `repeatRows=1`. -/
def df_to_pdf_bytes (df : Table) (title : String) (landscape_mode : Bool) : PDFDoc :=
  let headers := df.cols
  let data_rows := df.rows.map fun row => row.map fun val => escape_str (val.getD "")
  { page := pageSize landscape_mode
    title := title
    tableData := headers :: data_rows
    colWidths := col_widths df.cols landscape_mode
    repeatRows := 1 }

/-- Form value `orientation = request.form.get('orientation', 'landscape')`
(src/app.py line 127): an absent form value falls back to `'landscape'`. -/
def orientation_of (form_value : Option String) : String :=
  form_value.getD "landscape"

/-- Flag `landscape_mode=(orientation == 'landscape')` (src/app.py line 144). -/
def landscape_mode_of (form_value : Option String) : Bool :=
  orientation_of form_value == "landscape"

/- ### Concrete inputs used to exercise the theorems -/

/-- A stream that decodes under every encoding into a header record and
5001 data records. -/
def decBig : Option Enc → Option (List (List String)) := fun _ =>
  some (["h"] :: List.replicate 5001 ["v"])

/-- A stream that decodes under every encoding into a 2-column header and
one data record. -/
def decSmall : Option Enc → Option (List (List String)) := fun _ =>
  some [["a", "b"], ["1", "2"]]

/-- Parse attempts that fail with a non-decode error except under cp1252. -/
def parseCp1252 : Option Enc → Except PErr Table := fun enc =>
  match enc with
  | some Enc.cp1252 => .ok ⟨["a"], []⟩
  | _ => .error (.otherErr 7)

/-- Parse attempts whose first attempt hits a decode error and whose
latin-1 retry succeeds. -/
def parseLatin1 : Option Enc → Except PErr Table := fun enc =>
  match enc with
  | none => .error (.decodeErr 3)
  | some Enc.latin1 => .ok ⟨["x"], []⟩
  | _ => .error (.otherErr 9)

/- ### Properties of the escaping pipeline -/

theorem replaceChar_append (pat : Char) (rep : List Char) (a b : List Char) :
    replaceChar pat rep (a ++ b) = replaceChar pat rep a ++ replaceChar pat rep b := by
  induction a with
  | nil => rfl
  | cons c cs ih => simp [replaceChar, ih]

theorem escape_cell_cons (c : Char) (cs : List Char) :
    escape_cell (c :: cs) = escChar c ++ escape_cell cs := by
  by_cases h1 : c = '&'
  · subst h1; simp +decide [escape_cell, replaceChar, replaceChar_append, escChar]
  · by_cases h2 : c = '<'
    · subst h2; simp +decide [escape_cell, replaceChar, replaceChar_append, escChar]
    · by_cases h3 : c = '>'
      · subst h3; simp +decide [escape_cell, replaceChar, replaceChar_append, escChar]
      · by_cases h4 : c = '\n'
        · subst h4
          simp +decide [escape_cell, replaceChar, replaceChar_append, escChar]
        · simp [escape_cell, replaceChar, replaceChar_append, escChar,
            h1, h2, h3, h4]

theorem escape_cell_eq_flatMap (s : List Char) :
    escape_cell s = s.flatMap escChar := by
  induction s with
  | nil => rfl
  | cons c cs ih => rw [escape_cell_cons, ih, List.flatMap_cons]

theorem wellEscaped_escChar_append (c : Char) (t : List Char)
    (h : wellEscaped t = true) : wellEscaped (escChar c ++ t) = true := by
  by_cases h1 : c = '&'
  · subst h1; simpa [escChar, wellEscaped] using h
  · by_cases h2 : c = '<'
    · subst h2; simpa [escChar, wellEscaped] using h
    · by_cases h3 : c = '>'
      · subst h3; simpa [escChar, wellEscaped] using h
      · by_cases h4 : c = '\n'
        · subst h4; simpa [escChar, wellEscaped] using h
        · have hc : escChar c ++ t = c :: t := by simp [escChar, h1, h2, h3, h4]
          rw [hc]
          conv_lhs => unfold wellEscaped
          split
          all_goals simp_all

theorem wellEscaped_flatMap (s : List Char) :
    wellEscaped (s.flatMap escChar) = true := by
  induction s with
  | nil => rfl
  | cons c cs ih =>
    rw [List.flatMap_cons]
    exact wellEscaped_escChar_append c _ ih

/- ### Properties of the loader -/

theorem try_encs_some_exists (parse : Option Enc → Except PErr Table)
    (l : List Enc) (t : Table) (h : try_encs parse l = some t) :
    ∃ e ∈ l, parse (some e) = .ok t := by
  induction l with
  | nil => simp [try_encs] at h
  | cons e es ih =>
    rw [try_encs] at h
    cases he : parse (some e) with
    | ok df =>
      rw [he] at h
      exact ⟨e, by simp, by simpa [he] using h⟩
    | error err =>
      rw [he] at h
      obtain ⟨e', he', hp⟩ := ih h
      exact ⟨e', by simp [he'], hp⟩

theorem read_csv_safely_ok (parse : Option Enc → Except PErr Table) (t : Table)
    (h : read_csv_safely parse = .ok t) : ∃ enc, parse enc = .ok t := by
  rw [read_csv_safely] at h
  cases h0 : parse none with
  | ok df =>
    rw [h0] at h
    exact ⟨none, by simpa [h0] using h⟩
  | error err =>
    rw [h0] at h
    cases err with
    | decodeErr e => exact ⟨some .latin1, h⟩
    | otherErr e =>
      cases htry : try_encs parse fallback_encs with
      | none => simp [htry] at h
      | some df =>
        rw [htry] at h
        obtain ⟨e', _, hp⟩ := try_encs_some_exists parse fallback_encs df htry
        exact ⟨some e', by simpa [h.symm] using hp⟩

theorem load_ok (dec : Option Enc → Option (List (List String))) (t : Table)
    (h : load dec = .ok t) :
    ∃ enc recs, dec enc = some recs ∧ pd_read_csv recs MAX_ROWS = .ok t := by
  obtain ⟨enc, henc⟩ := read_csv_safely_ok _ t h
  refine ⟨enc, ?_⟩
  cases hd : dec enc with
  | none => simp [hd] at henc
  | some recs =>
    rw [hd] at henc
    simp only [] at henc
    cases hp : pd_read_csv recs MAX_ROWS with
    | ok df =>
      rw [hp] at henc
      simp only [Except.ok.injEq] at henc
      subst henc
      exact ⟨recs, rfl, hp⟩
    | error u =>
      rw [hp] at henc
      simp at henc

theorem pd_read_csv_ok (recs : List (List String)) (n : Nat) (t : Table)
    (h : pd_read_csv recs n = .ok t) :
    ∃ header rest, recs = header :: rest ∧ t.cols = header ∧
      t.rows = (rest.take n).map (pad_row header.length) ∧
      ∀ r ∈ rest.take n, r.length ≤ header.length := by
  cases recs with
  | nil => simp [pd_read_csv] at h
  | cons header rest =>
    rw [pd_read_csv] at h
    by_cases hall : (rest.take n).all (fun r => r.length ≤ header.length) = true
    · rw [if_pos hall] at h
      cases h
      exact ⟨header, rest, rfl, rfl, rfl, by simpa [List.all_eq_true] using hall⟩
    · rw [if_neg hall] at h
      cases h

theorem pad_row_length (n : Nat) (r : List String) (h : r.length ≤ n) :
    (pad_row n r).length = n := by
  simp [pad_row, Nat.add_sub_cancel' h]

theorem load_of_first_ok (dec : Option Enc → Option (List (List String)))
    (recs : List (List String)) (t : Table) (h1 : dec none = some recs)
    (h2 : pd_read_csv recs MAX_ROWS = .ok t) : load dec = .ok t := by
  simp only [load, read_csv_safely, h1, h2]

/- ### Properties of the column-width computation -/

theorem sum_map_mul_div (L : List Nat) (U T : ℚ) :
    (L.map fun l : Nat => U * ((l : ℚ) / T)).sum = U * ((L.sum : ℚ) / T) := by
  induction L with
  | nil => simp
  | cons a as ih =>
    simp only [List.map_cons, List.sum_cons, ih, Nat.cast_add]
    rw [add_div, mul_add]

theorem header_lengths_sum_pos (h : String) (hs : List String) :
    0 < (header_lengths (h :: hs)).sum := by
  have h5 : 5 ≤ max 5 h.length := le_max_left _ _
  have : max 5 h.length ≤ (header_lengths (h :: hs)).sum := by
    simp only [header_lengths, List.map_cons, List.sum_cons]
    exact Nat.le_add_right _ _
  omega

theorem total_len_of_ne_nil (h : String) (hs : List String) :
    total_len (h :: hs) = (header_lengths (h :: hs)).sum := by
  have := header_lengths_sum_pos h hs
  rw [total_len, if_pos (by omega)]

theorem sum_map_eq_of_le {L : List Nat} {f g : Nat → ℚ}
    (hle : ∀ x ∈ L, f x ≤ g x) (hsum : (L.map f).sum = (L.map g).sum) :
    ∀ x ∈ L, f x = g x := by
  induction L with
  | nil => simp
  | cons a as ih =>
    simp only [List.map_cons, List.sum_cons] at hsum
    have ha : f a ≤ g a := hle a (by simp)
    have has : (as.map f).sum ≤ (as.map g).sum :=
      List.sum_le_sum fun x hx => hle x (by simp [hx])
    have hfa : f a = g a := by linarith
    have hsum' : (as.map f).sum = (as.map g).sum := by linarith
    intro x hx
    rcases List.mem_cons.mp hx with h | h
    · exact h ▸ hfa
    · exact ih (fun y hy => hle y (by simp [hy])) hsum' x h

/- ### The claims -/

/-- C2: every cell value is converted to text and then rewritten by, in this
order, `&`→`&amp;`, `<`→`&lt;`, `>`→`&gt;` and finally `\n`→`<br/>`; the
sequential replacements act like a single left-to-right pass (`escChar`),
so no raw `&`, `<` or `>` of the original cell text survives unescaped and
the inserted `<br/>` marker is itself left unescaped. -/
theorem C2_cell_escaping (s : List Char) :
    escape_cell s = s.flatMap escChar ∧ wellEscaped (escape_cell s) = true :=
  ⟨escape_cell_eq_flatMap s, by
    rw [escape_cell_eq_flatMap]; exact wellEscaped_flatMap s⟩

/-- C5: when the first parse attempt fails with a non-decode error, the
loader retries with utf-8, utf-16, cp1252 and latin-1 in exactly that
order, returns the first success, and re-raises the original error when
all four retries fail. -/
theorem C5_non_decode_fallback (parse : Option Enc → Except PErr Table) (e : Nat)
    (h : parse none = .error (.otherErr e)) :
    read_csv_safely parse =
      match parse (some .utf8), parse (some .utf16),
          parse (some .cp1252), parse (some .latin1) with
      | .ok t, _, _, _ => .ok t
      | .error _, .ok t, _, _ => .ok t
      | .error _, .error _, .ok t, _ => .ok t
      | .error _, .error _, .error _, .ok t => .ok t
      | .error _, .error _, .error _, .error _ => .error (.otherErr e) := by
  simp only [read_csv_safely, h]
  cases h1 : parse (some Enc.utf8) <;>
    cases h2 : parse (some Enc.utf16) <;>
      cases h3 : parse (some Enc.cp1252) <;>
        cases h4 : parse (some Enc.latin1) <;>
          simp [try_encs, fallback_encs, h1, h2, h3, h4]

/-- C5 witness: a stream failing with a structural error whose cp1252
retry succeeds loads via that retry. -/
theorem C5_non_decode_fallback_witness :
    read_csv_safely parseCp1252 = .ok ⟨["a"], []⟩ :=
  (C5_non_decode_fallback parseCp1252 7 rfl).trans rfl

/-- C6: when the first parse attempt fails with a decode error, the loader
retries exactly once with latin-1 and that retry's outcome is the loader's
outcome; in particular, any input whose latin-1 parse succeeds loads
through this fallback. -/
theorem C6_decode_fallback (parse : Option Enc → Except PErr Table) (e : Nat)
    (h : parse none = .error (.decodeErr e)) :
    read_csv_safely parse = parse (some .latin1) ∧
    ∀ t, parse (some .latin1) = .ok t → read_csv_safely parse = .ok t := by
  have hmain : read_csv_safely parse = parse (some .latin1) := by
    simp only [read_csv_safely, h]
  exact ⟨hmain, fun t ht => hmain.trans ht⟩

/-- C6 witness: a stream whose first attempt decode-fails and which is
valid latin-1 loads via the latin-1 fallback. -/
theorem C6_decode_fallback_witness :
    read_csv_safely parseLatin1 = .ok ⟨["x"], []⟩ :=
  (C6_decode_fallback parseLatin1 3 rfl).2 _ rfl

/-- C7: a table with zero data rows is rendered by the very same pipeline
with no special case: the result is the document with the requested title
and a table holding only the header row (and the usual column widths and
header-repetition flag). -/
theorem C7_zero_rows (cols : List String) (title : String) (m : Bool) :
    df_to_pdf_bytes ⟨cols, []⟩ title m =
      { page := pageSize m, title := title, tableData := [cols],
        colWidths := col_widths cols m, repeatRows := 1 } := rfl

/-- C10: the divisor of the proportional-width computation is never zero:
`num_cols` is clamped to at least 1 and each header weight is at least 5,
so `total_len` is positive for any column list, including the empty one. -/
theorem C10_divisor_never_zero (headers : List String) :
    0 < total_len headers ∧ ((total_len headers : ℚ)) ≠ 0 := by
  have hpos : 0 < total_len headers := by
    cases headers with
    | nil => decide
    | cons h hs =>
      rw [total_len_of_ne_nil]
      exact header_lengths_sum_pos h hs
  exact ⟨hpos, Nat.cast_ne_zero.mpr hpos.ne'⟩

/-- C8: every table produced by the loader is rectangular — each row has
exactly as many cells as there are columns — and has at most `MAX_ROWS`
data rows. -/
theorem C8_load_invariant (dec : Option Enc → Option (List (List String)))
    (t : Table) (h : load dec = .ok t) :
    (∀ r ∈ t.rows, r.length = t.cols.length) ∧ t.rows.length ≤ MAX_ROWS := by
  obtain ⟨enc, recs, hdec, hp⟩ := load_ok dec t h
  obtain ⟨header, rest, rfl, hcols, hrows, hbound⟩ :=
    pd_read_csv_ok recs MAX_ROWS t hp
  constructor
  · intro r hr
    rw [hrows] at hr
    simp only [List.mem_map] at hr
    obtain ⟨r0, hr0, rfl⟩ := hr
    rw [hcols]
    exact pad_row_length _ _ (hbound r0 hr0)
  · rw [hrows]
    simp only [List.length_map, List.length_take]
    exact min_le_left _ _

/-- C8 witness: a 2-column, 1-row input loads into a table satisfying the
invariant. -/
theorem C8_load_invariant_witness :
    (∀ r ∈ (Table.mk ["a", "b"] [[some "1", some "2"]]).rows,
        r.length = (Table.mk ["a", "b"] [[some "1", some "2"]]).cols.length) ∧
    (Table.mk ["a", "b"] [[some "1", some "2"]]).rows.length ≤ MAX_ROWS :=
  C8_load_invariant decSmall _ rfl

/-- C1: whenever the decoded input holds more than `MAX_ROWS` data records
(under every encoding it decodes with), the loaded table has exactly
`MAX_ROWS` data rows, namely the first `MAX_ROWS` data records of the
input in their original order (NaN-padded to the header width); the
header record is not counted against the cap. -/
theorem C1_row_cap (dec : Option Enc → Option (List (List String)))
    (t : Table)
    (hbig : ∀ enc recs, dec enc = some recs → MAX_ROWS < recs.tail.length)
    (h : load dec = .ok t) :
    t.rows.length = MAX_ROWS ∧
    ∃ enc header rest, dec enc = some (header :: rest) ∧ t.cols = header ∧
      t.rows = (rest.take MAX_ROWS).map (pad_row header.length) := by
  obtain ⟨enc, recs, hdec, hp⟩ := load_ok dec t h
  obtain ⟨header, rest, rfl, hcols, hrows, hbound⟩ :=
    pd_read_csv_ok recs MAX_ROWS t hp
  have hlen : MAX_ROWS < rest.length := by simpa using hbig enc _ hdec
  refine ⟨?_, enc, header, rest, hdec, hcols, hrows⟩
  rw [hrows]
  simp only [List.length_map, List.length_take]
  omega

/-- C1 witness: an input with 5001 data records loads into a table with
exactly 5000 rows, the first 5000 records in order. -/
theorem C1_row_cap_witness :
    load decBig = .ok ⟨["h"], List.replicate 5000 [some "v"]⟩ ∧
    (Table.mk ["h"] (List.replicate 5000 [some "v"])).rows.length = MAX_ROWS := by
  have hpd : pd_read_csv (["h"] :: List.replicate 5001 ["v"]) MAX_ROWS =
      .ok ⟨["h"], List.replicate 5000 [some "v"]⟩ := by
    rw [pd_read_csv]
    simp only [MAX_ROWS, List.take_replicate, List.all_replicate,
      List.map_replicate]
    norm_num
    rfl
  have hload : load decBig = .ok ⟨["h"], List.replicate 5000 [some "v"]⟩ :=
    load_of_first_ok decBig _ _ rfl hpd
  refine ⟨hload, (C1_row_cap decBig _ ?_ hload).1⟩
  intro enc recs hr
  simp only [decBig, Option.some.injEq] at hr
  subst hr
  simp only [List.tail_cons, List.length_replicate]
  decide

/-- C4: every computed column width is at least 40 pt, and each column's
width is the 40 pt clamp of `usable_width × weight / sum of weights`
where a column's weight is `max(5, length of its header text)`. -/
theorem C4_column_width_formula (headers : List String) (m : Bool) :
    (∀ w ∈ col_widths headers m, (40 : ℚ) ≤ w) ∧
    col_widths headers m = headers.map (fun hd =>
      max 40 (usable_width m *
        (((max 5 hd.length : Nat) : ℚ) / (total_len headers : ℚ)))) := by
  constructor
  · intro w hw
    simp only [col_widths, List.mem_map] at hw
    obtain ⟨l, _, rfl⟩ := hw
    exact le_max_left _ _
  · simp [col_widths, header_lengths, List.map_map, Function.comp]

/-- C4 witness: the single column with header `"id"` gets the full usable
landscape width, which is at least 40 pt. -/
theorem C4_column_width_formula_witness : (40 : ℚ) ≤ (101840 : ℚ) / 127 := by
  have hmem : ((101840 : ℚ) / 127) ∈ col_widths ["id"] true := by
    have : col_widths ["id"] true = [(101840 : ℚ) / 127] := by
      have h2 : "id".length = 2 := rfl
      norm_num [col_widths, header_lengths, total_len, num_cols, usable_width,
        pageSize, A4h, leftMargin, rightMargin, h2]
    rw [this]
    exact List.mem_singleton.mpr rfl
  exact (C4_column_width_formula ["id"] true).1 _ hmem

/-- C3 counterexample: for 50 single-character headers in portrait
orientation every proportional share falls below the 40 pt clamp, so the
column widths sum to 2000 pt while the usable width is 70520/127
(≈ 555.3 pt) — a discrepancy beyond 1000 pt, not a floating-point
tolerance. -/
theorem C3_counterexample :
    (List.replicate 50 "a").length = 50 ∧
    (col_widths (List.replicate 50 "a") false).sum = 2000 ∧
    usable_width false = 70520 / 127 ∧
    (1000 : ℚ) < 2000 - 70520 / 127 := by
  have h1 : header_lengths (List.replicate 50 "a") = List.replicate 50 5 := by
    rw [header_lengths, List.map_replicate,
      show (max 5 "a".length : Nat) = 5 from rfl]
  have hsum5 : (List.replicate 50 (5 : Nat)).sum = 250 := by decide
  have h2 : total_len (List.replicate 50 "a") = 250 := by
    rw [total_len, h1, hsum5, if_pos (by omega)]
  have h3 : usable_width false = 70520 / 127 := by
    norm_num [usable_width, pageSize, A4w, leftMargin, rightMargin]
  have h4 : col_widths (List.replicate 50 "a") false = List.replicate 50 40 := by
    rw [col_widths, h1, h2, List.map_replicate, h3]
    rw [max_eq_left (by norm_num)]
  refine ⟨by rw [List.length_replicate], ?_, h3, by norm_num⟩
  rw [h4, List.sum_replicate]
  norm_num

/-- C3 (amended): for 1 to 50 columns the sum of the computed column widths
is at least the usable page width; it equals the usable width exactly when
every column's proportional share is already at least the 40 pt minimum,
and strictly exceeds it whenever some share falls below 40 pt (the clamp
fires). -/
theorem C3_sum_col_widths (headers : List String) (m : Bool)
    (hlow : 1 ≤ headers.length) (hhigh : headers.length ≤ 50) :
    usable_width m ≤ (col_widths headers m).sum ∧
    ((col_widths headers m).sum = usable_width m ↔
      ∀ l ∈ header_lengths headers,
        (40 : ℚ) ≤ usable_width m * ((l : ℚ) / (total_len headers : ℚ))) ∧
    ((∃ l ∈ header_lengths headers,
        usable_width m * ((l : ℚ) / (total_len headers : ℚ)) < 40) →
      usable_width m < (col_widths headers m).sum) := by
  obtain ⟨h0, hs, rfl⟩ : ∃ h0 hs, headers = h0 :: hs := by
    cases headers with
    | nil => simp at hlow
    | cons a as => exact ⟨a, as, rfl⟩
  have hT : total_len (h0 :: hs) = (header_lengths (h0 :: hs)).sum :=
    total_len_of_ne_nil h0 hs
  have hTpos : 0 < (header_lengths (h0 :: hs)).sum := header_lengths_sum_pos h0 hs
  have hsum : ((header_lengths (h0 :: hs)).map fun l : Nat =>
      usable_width m * ((l : ℚ) / (total_len (h0 :: hs) : ℚ))).sum =
      usable_width m := by
    rw [sum_map_mul_div, hT, div_self (by exact_mod_cast hTpos.ne'), mul_one]
  have hcw : col_widths (h0 :: hs) m = (header_lengths (h0 :: hs)).map
      fun l : Nat =>
        max 40 (usable_width m * ((l : ℚ) / (total_len (h0 :: hs) : ℚ))) := by
    rw [col_widths]
  have hge : usable_width m ≤ (col_widths (h0 :: hs) m).sum := by
    calc usable_width m
        = ((header_lengths (h0 :: hs)).map fun l : Nat =>
            usable_width m * ((l : ℚ) / (total_len (h0 :: hs) : ℚ))).sum :=
          hsum.symm
      _ ≤ (col_widths (h0 :: hs) m).sum := by
          rw [hcw]
          exact List.sum_le_sum fun i _ => le_max_right _ _
  have heq_of_all : (∀ l ∈ header_lengths (h0 :: hs),
      (40 : ℚ) ≤ usable_width m * ((l : ℚ) / (total_len (h0 :: hs) : ℚ))) →
      (col_widths (h0 :: hs) m).sum = usable_width m := by
    intro hall
    rw [hcw, List.map_congr_left fun l hl => max_eq_right (hall l hl)]
    exact hsum
  have hall_of_eq : (col_widths (h0 :: hs) m).sum = usable_width m →
      ∀ l ∈ header_lengths (h0 :: hs),
        (40 : ℚ) ≤ usable_width m * ((l : ℚ) / (total_len (h0 :: hs) : ℚ)) := by
    intro heq l hl
    have hsums : ((header_lengths (h0 :: hs)).map fun l : Nat =>
        usable_width m * ((l : ℚ) / (total_len (h0 :: hs) : ℚ))).sum =
        ((header_lengths (h0 :: hs)).map fun l : Nat =>
          max 40 (usable_width m * ((l : ℚ) / (total_len (h0 :: hs) : ℚ)))).sum := by
      rw [hsum, ← hcw]
      exact heq.symm
    have hpt := sum_map_eq_of_le (fun x _ => le_max_right _ _) hsums l hl
    exact max_eq_right_iff.mp hpt.symm
  refine ⟨hge, ⟨hall_of_eq, heq_of_all⟩, ?_⟩
  rintro ⟨l, hl, hlt⟩
  rcases lt_or_eq_of_le hge with hstrict | hcontra
  · exact hstrict
  · exact absurd (hall_of_eq hcontra.symm l hl) (not_le.mpr hlt)

/-- C3 witness: a single column takes the whole usable landscape width, and
its proportional share is above 40 pt, so the sum equals the usable width. -/
theorem C3_sum_col_widths_witness :
    usable_width true ≤ (col_widths ["x"] true).sum :=
  (C3_sum_col_widths ["x"] true (by decide) (by decide)).1

/-- C9 counterexample: an absent orientation value is not the string
`"landscape"`, yet the conversion defaults it to `"landscape"` and renders
landscape A4, not portrait A4. -/
theorem C9_counterexample :
    (none : Option String) ≠ some "landscape" ∧
    landscape_mode_of none = true ∧
    pageSize (landscape_mode_of none) ≠ (A4w, A4h) := by
  refine ⟨by simp, rfl, ?_⟩
  intro hcontra
  rw [show landscape_mode_of none = true from rfl] at hcontra
  rw [pageSize, if_pos rfl, Prod.mk.injEq] at hcontra
  have := hcontra.1
  norm_num [A4w, A4h] at this

/-- C9 (amended): every orientation string present in the form other than
exactly `"landscape"` (misspellings, different casing, `"portrait"`)
renders portrait A4; an absent orientation value defaults to
`"landscape"`, so landscape is selected exactly by the string
`"landscape"`, whether explicit or defaulted. -/
theorem C9_orientation (s : String) (df : Table) (title : String)
    (h : s ≠ "landscape") :
    landscape_mode_of (some s) = false ∧
    (df_to_pdf_bytes df title (landscape_mode_of (some s))).page = (A4w, A4h) ∧
    landscape_mode_of (some "landscape") = true ∧
    landscape_mode_of none = true := by
  have hb : landscape_mode_of (some s) = false := by
    simp [landscape_mode_of, orientation_of, h]
  refine ⟨hb, ?_, rfl, rfl⟩
  rw [hb]
  rfl

/-- C9 witness: the differently-cased string `"Landscape"` renders
portrait A4. -/
theorem C9_orientation_witness :
    landscape_mode_of (some "Landscape") = false ∧
    (df_to_pdf_bytes ⟨["a"], []⟩ "T" (landscape_mode_of (some "Landscape"))).page =
      (A4w, A4h) := by
  have h := C9_orientation "Landscape" ⟨["a"], []⟩ "T" (by decide)
  exact ⟨h.1, h.2.1⟩

end CsvToPdf
